import Mathlib

/-!
Shallow embedding of the core of `sleepbot.py` (a Discord voice-meetup-room
bot): the sqlite-backed blacklist / room / admin-log tables, the room
registry operations, and the visibility reconciler
(`check_room_capacity` / `hide_room` / `show_room`).

Modelling conventions:
* Discord snowflake ids are `Nat`.  Python truthiness of an id (`if role_id:`)
  is modelled as `≠ 0`.
* A channel's permission-overwrite dict is modelled by its lookup function
  `Principal → Option PermOW` (`none` = no overwrite entry for that
  principal).  `overwrites[target] = ow` is a function update,
  `set_permissions(target, overwrite=None)` maps the key to `none`, and
  `channel.edit(overwrites=...)` replaces the whole function.  This captures
  exactly the last-write-wins lookup semantics of the Python dict.
* Fallibility of the sqlite store is modelled by a `storeFail` flag fed to
  `safe_db_run`, the embedding of `safe_db_context` (which rolls back, logs
  and RE-RAISES on error).  Functions that wrap the context manager in
  `try/except` in the source catch the error here by matching on the
  `Except` result; functions without a handler return the `Except` to the
  caller.
* The external Discord calls (channel edits, `set_permissions`) are modelled
  on their success path; the claims under verification are about the
  computed permission state, the spec treats apply-failures as
  logged-and-swallowed best effort.
-/

/-- A sqlite error surfaced by the store (abstracted: the claims only care
whether the operation failed, not why). -/
inductive DBError where
  | failure
deriving DecidableEq

/-- Embedding of `safe_db_context`: run the transaction body `f` on state
`s`; on store failure the transaction is rolled back (state discarded), a
diagnostic is logged, and the exception is RE-RAISED to the caller
(`except ...: conn.rollback(); logger.error(...); raise`). -/
def safe_db_run {σ : Type} (storeFail : Bool) (f : σ → σ) (s : σ) :
    Except DBError σ :=
  if storeFail then Except.error DBError.failure else Except.ok (f s)

/-- One row of the `user_blacklists` table:
`(owner_id, blocked_user_id, reason, added_at)` with
`PRIMARY KEY (owner_id, blocked_user_id)`. -/
structure BLRow where
  owner_id : Nat
  blocked_user_id : Nat
  reason : String
  added_at : Nat
deriving DecidableEq

/-- Embedding of `add_to_blacklist`: `INSERT OR REPLACE` keyed on
`(owner_id, blocked_user_id)` (sqlite deletes any conflicting row and
inserts the new one), wrapped in `try/except` so a store failure leaves the
table unchanged and is not re-raised. -/
def add_to_blacklist (storeFail : Bool) (db : List BLRow)
    (owner_id blocked_user_id : Nat) (reason : String) (now : Nat) :
    List BLRow :=
  match safe_db_run storeFail
      (fun d =>
        (d.filter (fun r =>
          !(decide (r.owner_id = owner_id ∧
                    r.blocked_user_id = blocked_user_id)))) ++
        [⟨owner_id, blocked_user_id, reason, now⟩]) db with
  | .ok d => d
  | .error _ => db

/-- Embedding of `remove_from_blacklist`: `DELETE` by the pair, returning
whether a row was actually removed (`cursor.rowcount > 0`); a store failure
is caught and reported as `false` with the table unchanged. -/
def remove_from_blacklist (storeFail : Bool) (db : List BLRow)
    (owner_id blocked_user_id : Nat) : List BLRow × Bool :=
  match safe_db_run storeFail
      (fun d => d.filter (fun r =>
        !(decide (r.owner_id = owner_id ∧
                  r.blocked_user_id = blocked_user_id)))) db with
  | .ok d => (d, d.length < db.length)
  | .error _ => (db, false)

/-- Embedding of `get_blacklist`: `SELECT blocked_user_id FROM
user_blacklists WHERE owner_id = ?`; a store failure is caught and the empty
list is returned (`except ...: return []`). -/
def get_blacklist (storeFail : Bool) (db : List BLRow) (owner_id : Nat) :
    List Nat :=
  match safe_db_run storeFail (fun d => d) db with
  | .ok d =>
      (d.filter (fun r => decide (r.owner_id = owner_id))).map
        (fun r => r.blocked_user_id)
  | .error _ => []

/-- One row of the `admin_logs` table. -/
structure AdminLogRow where
  action : String
  user_id : Option Nat
  target_id : Option Nat
  details : String
  timestamp : Nat
deriving DecidableEq

/-- Embedding of `add_admin_log`: a bare `INSERT` inside `safe_db_context`
with NO surrounding `try/except` — the `Except` produced by the context
manager is handed straight back to the caller. -/
def add_admin_log (storeFail : Bool) (logs : List AdminLogRow)
    (row : AdminLogRow) : Except DBError (List AdminLogRow) :=
  safe_db_run storeFail (fun l => l ++ [row]) logs

/-- One row of the `rooms` table, field order as in `init_db`. -/
structure RoomRow where
  room_id : Nat
  text_channel_id : Nat
  voice_channel_id : Nat
  creator_id : Nat
  created_at : Nat
  role_id : Nat
  gender : String
  details : String
deriving DecidableEq

/-- Embedding of `add_room`: plain `INSERT INTO rooms`. -/
def add_room (rooms : List RoomRow)
    (text_channel_id voice_channel_id creator_id role_id : Nat)
    (gender details : String) (now room_id : Nat) : List RoomRow :=
  rooms ++ [⟨room_id, text_channel_id, voice_channel_id, creator_id, now,
            role_id, gender, details⟩]

/-- Embedding of `get_rooms_by_creator`: `SELECT text_channel_id,
voice_channel_id FROM rooms WHERE creator_id = ?`. -/
def get_rooms_by_creator (rooms : List RoomRow) (creator_id : Nat) :
    List (Nat × Nat) :=
  (rooms.filter (fun r => decide (r.creator_id = creator_id))).map
    (fun r => (r.text_channel_id, r.voice_channel_id))

/-- Python truthiness of an optional integer id (`if text_channel_id:`):
`None` and `0` are falsy. -/
def pyTruthyId : Option Nat → Bool
  | none => false
  | some n => decide (n ≠ 0)

/-- The text-id branch of `remove_room`: `SELECT role_id, creator_id,
voice_channel_id ... WHERE text_channel_id = ?` (`fetchone`, i.e. first
matching row), then `DELETE ... WHERE text_channel_id = ?`. -/
def remove_room_by_text (rooms : List RoomRow) (t : Nat) :
    List RoomRow × Option (Nat × Nat × Nat) :=
  match rooms.find? (fun r => decide (r.text_channel_id = t)) with
  | none => (rooms, none)
  | some r =>
      (rooms.filter (fun r2 => !(decide (r2.text_channel_id = t))),
       some (r.role_id, r.creator_id, r.voice_channel_id))

/-- The voice-id branch of `remove_room`, symmetric to the text branch,
returning the text channel id as the counterpart. -/
def remove_room_by_voice (rooms : List RoomRow) (v : Nat) :
    List RoomRow × Option (Nat × Nat × Nat) :=
  match rooms.find? (fun r => decide (r.voice_channel_id = v)) with
  | none => (rooms, none)
  | some r =>
      (rooms.filter (fun r2 => !(decide (r2.voice_channel_id = v))),
       some (r.role_id, r.creator_id, r.text_channel_id))

/-- Embedding of `remove_room(text_channel_id=None, voice_channel_id=None)`:
dispatch on Python truthiness of the two keyword arguments, returning
`(role_id, creator_id, other_channel_id)` of the first matching row (or
`none` for the `(None, None, None)` result). -/
def remove_room (rooms : List RoomRow)
    (text_channel_id voice_channel_id : Option Nat) :
    List RoomRow × Option (Nat × Nat × Nat) :=
  if pyTruthyId text_channel_id then
    remove_room_by_text rooms (text_channel_id.getD 0)
  else if pyTruthyId voice_channel_id then
    remove_room_by_voice rooms (voice_channel_id.getD 0)
  else (rooms, none)

/-- Embedding of `get_room_info`: `SELECT creator_id, role_id,
text_channel_id, voice_channel_id FROM rooms WHERE text_channel_id = ? OR
voice_channel_id = ?` (`fetchone`); `none` models the
`(None, None, None, None)` result. -/
def get_room_info (rooms : List RoomRow) (channel_id : Nat) :
    Option (Nat × Nat × Nat × Nat) :=
  (rooms.find? (fun r =>
      decide (r.text_channel_id = channel_id ∨
              r.voice_channel_id = channel_id))).map
    (fun r => (r.creator_id, r.role_id, r.text_channel_id,
               r.voice_channel_id))

/-- A guild member as the reconciler sees it: its snowflake id and its
`member.bot` flag. -/
structure Member where
  id : Nat
  bot : Bool
deriving DecidableEq

/-- A principal keyed in a channel's permission-overwrite dict: the
`@everyone` default role, the bot's own user (`guild.me`), a role, or an
individual member. -/
inductive Principal where
  | defaultRole
  | botMe
  | role (id : Nat)
  | member (m : Member)
deriving DecidableEq

/-- A `discord.PermissionOverwrite` restricted to the flags the bot sets;
`none` is an unset flag. -/
structure PermOW where
  view_channel : Option Bool
  read_messages : Option Bool
  send_messages : Option Bool
  connect : Option Bool
  manage_channels : Option Bool
deriving DecidableEq

/-- `PermissionOverwrite(view_channel=False)`. -/
def owViewFalse : PermOW := ⟨some false, none, none, none, none⟩

/-- `PermissionOverwrite(view_channel=True)`. -/
def owViewTrue : PermOW := ⟨some true, none, none, none, none⟩

/-- `PermissionOverwrite(view_channel=True, manage_channels=True)`, used for
`guild.me`. -/
def owViewTrueManage : PermOW := ⟨some true, none, none, none, some true⟩

/-- The creator's overwrite written by `show_room`:
`PermissionOverwrite(view_channel=True, read_messages=True, connect=True)`. -/
def owCreatorShow : PermOW := ⟨some true, some true, none, some true, none⟩

/-- The blacklist re-denial overwrite written by `hide_room` / `show_room`:
`view_channel=False, read_messages=False, send_messages=False,
connect=False`. -/
def owDenyAll : PermOW := ⟨some false, some false, some false, some false, none⟩

/-- The per-occupant allow written by `hide_room`: `view_channel=True,
read_messages=True, send_messages=True`, plus `connect=True` on the voice
channel only (`connect=True if isinstance(channel, VoiceChannel) else
None`). -/
def owAllowPresent (isVoice : Bool) : PermOW :=
  ⟨some true, some true, some true, if isVoice then some true else none, none⟩

/-- A permission-overwrite dict, modelled by its lookup function. -/
abbrev OWFun := Principal → Option PermOW

/-- The empty overwrite dict. -/
def owEmpty : OWFun := fun _ => none

/-- `overwrites[p] = ow` on a dict / `channel.set_permissions(p, **flags)`:
update the entry for principal `p`. -/
def owSet (m : OWFun) (p : Principal) (ow : PermOW) : OWFun :=
  fun q => if q = p then some ow else m q

/-- Guild state the reconciler consults: the member list (`get_member`),
the existing role ids (`get_role`), and the ids of the roles named 男性 /
女性 if present (`discord.utils.get(guild.roles, name=...)`). -/
structure Guild where
  members : List Member
  roles : List Nat
  maleRole : Option Nat
  femaleRole : Option Nat

/-- `guild.get_member(uid)`. -/
def Guild.get_member (g : Guild) (uid : Nat) : Option Member :=
  g.members.find? (fun m => decide (m.id = uid))

/-- `guild.get_role(rid)`. -/
def Guild.get_role (g : Guild) (rid : Nat) : Option Nat :=
  g.roles.find? (fun r => decide (r = rid))

/-- A text or voice channel: its overwrite dict, its numeric `user_limit`,
and whether it is a voice channel. -/
structure Channel where
  ow : OWFun
  user_limit : Nat
  isVoice : Bool

/-- The trailing blacklist pass shared by room creation, `hide_room` and
`show_room`: for every blacklisted user id that resolves to a guild member,
write the overwrite `val` for that member. -/
def blacklistPass (g : Guild) (bl : List Nat) (val : PermOW) (m : OWFun) :
    OWFun :=
  bl.foldl (fun acc uid =>
    match g.get_member uid with
    | some u => owSet acc (Principal.member u) val
    | none => acc) m

/-- First pass of `hide_room` on one channel: every overwrite entry keyed by
a non-bot member is removed (`set_permissions(target, overwrite=None)` over
a snapshot of the keys). -/
def hideResetPass (m : OWFun) : OWFun := fun q =>
  match q with
  | .member u => if u.bot then m q else none
  | _ => m q

/-- Second pass of `hide_room` on one channel: every currently-present
non-bot voice occupant is explicitly allowed. -/
def hideAllowPass (isVoice : Bool) (current : List Member) (m : OWFun) :
    OWFun :=
  current.foldl (fun acc u =>
    if u.bot then acc
    else owSet acc (Principal.member u) (owAllowPresent isVoice)) m

/-- The full-state overwrite computation `hide_room` performs on one
channel: reset non-bot member entries, allow present occupants, then re-deny
every (guild-member) blacklisted user — in that order. -/
def hide_room_channel (g : Guild) (bl : List Nat) (isVoice : Bool)
    (current : List Member) (m : OWFun) : OWFun :=
  blacklistPass g bl owDenyAll (hideAllowPass isVoice current (hideResetPass m))

/-- Embedding of `hide_room` (success path, text channel found): apply the
three passes to both the text and the voice channel, reading the creator's
blacklist once. -/
def hide_room (g : Guild) (storeFail : Bool) (bldb : List BLRow)
    (creator_id : Nat) (textCh voiceCh : Channel) (current : List Member) :
    Channel × Channel :=
  let bl := get_blacklist storeFail bldb creator_id
  ({ textCh with ow := hide_room_channel g bl textCh.isVoice current textCh.ow },
   { voiceCh with ow := hide_room_channel g bl voiceCh.isVoice current voiceCh.ow })

/-- The gender-visibility entries `show_room` adds: the eligible role(s)
allowed, and for a single-gender room the opposite role explicitly denied
(each entry only if the role exists). -/
def show_gender_pass (g : Guild) (gender : String) (m : OWFun) : OWFun :=
  if gender = "male" then
    let m1 := match g.maleRole with
      | some mr => owSet m (Principal.role mr) owViewTrue
      | none => m
    match g.femaleRole with
    | some fr => owSet m1 (Principal.role fr) owViewFalse
    | none => m1
  else if gender = "female" then
    let m1 := match g.femaleRole with
      | some fr => owSet m (Principal.role fr) owViewTrue
      | none => m
    match g.maleRole with
    | some mr => owSet m1 (Principal.role mr) owViewFalse
    | none => m1
  else if gender = "all" then
    let m1 := match g.maleRole with
      | some mr => owSet m (Principal.role mr) owViewTrue
      | none => m
    match g.femaleRole with
    | some fr => owSet m1 (Principal.role fr) owViewTrue
    | none => m1
  else m

/-- The fresh overwrite dict `show_room` builds and applies wholesale via
`channel.edit(overwrites=...)`: deny `@everyone`, allow `guild.me`, deny the
hidden role (if the stored id is truthy and the role still exists), the
gender entries, then explicitly allow the creator. -/
def show_overwrites (g : Guild) (role_id creator_id : Nat)
    (gender : String) : OWFun :=
  let m0 := owSet (owSet owEmpty Principal.defaultRole owViewFalse)
      Principal.botMe owViewTrueManage
  let hidden : Option Nat := if role_id ≠ 0 then g.get_role role_id else none
  let m1 := match hidden with
    | some hr => owSet m0 (Principal.role hr) owViewFalse
    | none => m0
  let m2 := show_gender_pass g gender m1
  match g.get_member creator_id with
  | some c => owSet m2 (Principal.member c) owCreatorShow
  | none => m2

/-- Embedding of `show_room` (success path): replace both channels'
overwrite dicts with the fresh open-state dict, then run the blacklist
re-denial pass on both. -/
def show_room (g : Guild) (storeFail : Bool) (bldb : List BLRow)
    (creator_id role_id : Nat) (gender : String)
    (textCh voiceCh : Channel) : Channel × Channel :=
  let ows := show_overwrites g role_id creator_id gender
  let bl := get_blacklist storeFail bldb creator_id
  ({ textCh with ow := blacklistPass g bl owDenyAll ows },
   { voiceCh with ow := blacklistPass g bl owDenyAll ows })

/-- Non-bot occupants of the voice channel
(`[m for m in voice_channel.members if not m.bot]`). -/
def humanCount (ms : List Member) : Nat :=
  (ms.filter (fun m => !m.bot)).length

/-- Bot occupants of the voice channel. -/
def botCount (ms : List Member) : Nat :=
  (ms.filter (fun m => m.bot)).length

/-- Which branch of `check_room_capacity` ran. -/
inductive Branch where
  | full
  | opened
deriving DecidableEq

/-- The outcome of one reconciliation pass: the branch taken and the two
updated channels. -/
structure ReconResult where
  branch : Branch
  textCh : Channel
  voiceCh : Channel

/-- The body of `check_room_capacity` once the room row is found: hide when
`human_count >= 2`, else show, then set the voice channel's
`user_limit` to `human_count + bot_count + 1` (recomputed every call). -/
def reconcile (g : Guild) (storeFail : Bool) (bldb : List BLRow)
    (row : RoomRow) (textCh voiceCh : Channel) (ms : List Member) :
    ReconResult :=
  if 2 ≤ humanCount ms then
    let p := hide_room g storeFail bldb row.creator_id textCh voiceCh ms
    { branch := Branch.full, textCh := p.1,
      voiceCh := { p.2 with user_limit := humanCount ms + botCount ms + 1 } }
  else
    let p := show_room g storeFail bldb row.creator_id row.role_id
        row.gender textCh voiceCh
    { branch := Branch.opened, textCh := p.1,
      voiceCh := { p.2 with user_limit := humanCount ms + botCount ms + 1 } }

/-- Embedding of `check_room_capacity`: look the voice channel up in the
`rooms` table (`fetchone` on `WHERE voice_channel_id = ?`); if no row is
registered, return without touching anything, otherwise reconcile. -/
def check_room_capacity (g : Guild) (storeFail : Bool) (bldb : List BLRow)
    (rooms : List RoomRow) (voice_channel_id : Nat)
    (textCh voiceCh : Channel) (ms : List Member) : Option ReconResult :=
  match rooms.find? (fun r => decide (r.voice_channel_id = voice_channel_id)) with
  | none => none
  | some row => some (reconcile g storeFail bldb row textCh voiceCh ms)

/-- An external provisioning call made by `create_room_with_gender`, in the
order the source issues them. -/
inductive ProvisionAction where
  | createCategory
  | createRole
  | createTextChannel
  | createVoiceChannel
deriving DecidableEq

/-- Outcome of a room-creation request: the (possibly updated) rooms table,
the external provisioning calls that were issued, the overwrite dict the new
channels were created with (when any were), and whether the request
succeeded. -/
structure CreateResult where
  rooms : List RoomRow
  actions : List ProvisionAction
  ows : Option OWFun
  success : Bool

/-- The overwrite dict built by `create_room_with_gender` for the new
channels: deny `@everyone`, allow `guild.me`, allow the creating user, the
gender allows, then `view_channel=False` for every blacklisted guild
member. -/
def create_overwrites (g : Guild) (storeFail : Bool) (bldb : List BLRow)
    (creator : Member) (gender : String) : OWFun :=
  let m0 := owSet (owSet (owSet owEmpty Principal.defaultRole owViewFalse)
      Principal.botMe owViewTrueManage) (Principal.member creator) owViewTrue
  let m1 :=
    if gender = "male" then
      match g.maleRole with
      | some mr => owSet m0 (Principal.role mr) owViewTrue
      | none => m0
    else if gender = "female" then
      match g.femaleRole with
      | some fr => owSet m0 (Principal.role fr) owViewTrue
      | none => m0
    else if gender = "all" then
      let ma := match g.maleRole with
        | some mr => owSet m0 (Principal.role mr) owViewTrue
        | none => m0
      match g.femaleRole with
      | some fr => owSet ma (Principal.role fr) owViewTrue
      | none => ma
    else m0
  blacklistPass g (get_blacklist storeFail bldb creator.id) owViewFalse m1

/-- Embedding of `create_room_with_gender`: the duplicate-active-room check
(`get_rooms_by_creator`) runs FIRST; on a hit the request is rejected with
an ephemeral error and nothing else happens.  Otherwise the category (if
missing), the hidden role and the two channels are provisioned, and the room
row is inserted. -/
def create_room_with_gender (g : Guild) (storeFail : Bool)
    (bldb : List BLRow) (rooms : List RoomRow) (categoryExists : Bool)
    (creator : Member) (gender room_message : String)
    (newTextId newVoiceId newRoleId newRoomId now : Nat) : CreateResult :=
  if get_rooms_by_creator rooms creator.id ≠ [] then
    { rooms := rooms, actions := [], ows := none, success := false }
  else
    let catActs := if categoryExists then [] else [ProvisionAction.createCategory]
    { rooms := add_room rooms newTextId newVoiceId creator.id newRoleId
        gender room_message now newRoomId,
      actions := catActs ++ [ProvisionAction.createRole,
        ProvisionAction.createTextChannel, ProvisionAction.createVoiceChannel],
      ows := some (create_overwrites g storeFail bldb creator gender),
      success := true }

/-!
### Pointwise characterisation of the overwrite passes
-/

theorem owSet_apply (m : OWFun) (p : Principal) (ow : PermOW)
    (q : Principal) : owSet m p ow q = if q = p then some ow else m q := rfl

/-- Whether the blacklist pass writes principal `q`: some blacklisted id in
`bl` resolves to a guild member whose principal is `q`. -/
def deniedBy (g : Guild) : List Nat → Principal → Bool
  | [], _ => false
  | uid :: rest, q =>
    (match g.get_member uid with
     | some u => decide (q = Principal.member u)
     | none => false) || deniedBy g rest q

theorem blacklistPass_apply (g : Guild) (bl : List Nat) (val : PermOW)
    (m : OWFun) (q : Principal) :
    blacklistPass g bl val m q =
      if deniedBy g bl q then some val else m q := by
  induction bl generalizing m with
  | nil => simp [blacklistPass, deniedBy]
  | cons uid rest ih =>
    have h1 : blacklistPass g (uid :: rest) val m q =
        blacklistPass g rest val
          (match g.get_member uid with
           | some u => owSet m (Principal.member u) val
           | none => m) q := rfl
    rw [h1, ih]
    cases hgm : g.get_member uid with
    | none => simp [deniedBy, hgm]
    | some u =>
      by_cases hq : q = Principal.member u
      · subst hq
        cases hd : deniedBy g rest (Principal.member u) <;>
          simp [deniedBy, hgm, hd, owSet]
      · cases hd : deniedBy g rest q <;>
          simp [deniedBy, hgm, hd, owSet, hq]

/-- Whether the occupant-allow pass of `hide_room` writes principal `q`:
`q` is a present non-bot member. -/
def occAllowed : List Member → Principal → Bool
  | [], _ => false
  | u :: rest, q =>
    (!u.bot && decide (q = Principal.member u)) || occAllowed rest q

theorem hideAllowPass_apply (isVoice : Bool) (current : List Member)
    (m : OWFun) (q : Principal) :
    hideAllowPass isVoice current m q =
      if occAllowed current q then some (owAllowPresent isVoice)
      else m q := by
  induction current generalizing m with
  | nil => simp [hideAllowPass, occAllowed]
  | cons u rest ih =>
    have h1 : hideAllowPass isVoice (u :: rest) m q =
        hideAllowPass isVoice rest
          (if u.bot then m
           else owSet m (Principal.member u) (owAllowPresent isVoice)) q := rfl
    rw [h1, ih]
    cases hub : u.bot
    · by_cases hq : q = Principal.member u
      · subst hq
        cases ho : occAllowed rest (Principal.member u) <;>
          simp [occAllowed, hub, ho, owSet]
      · cases ho : occAllowed rest q <;>
          simp [occAllowed, hub, ho, owSet, hq]
    · cases ho : occAllowed rest q <;> simp [occAllowed, hub, ho]

theorem hide_room_channel_apply (g : Guild) (bl : List Nat)
    (isVoice : Bool) (current : List Member) (m : OWFun) (q : Principal) :
    hide_room_channel g bl isVoice current m q =
      if deniedBy g bl q then some owDenyAll
      else if occAllowed current q then some (owAllowPresent isVoice)
      else hideResetPass m q := by
  unfold hide_room_channel
  rw [blacklistPass_apply, hideAllowPass_apply]

/-- Running the full-state pass of `hide_room` a second time over its own
output changes nothing, pointwise. -/
theorem hide_room_channel_idem (g : Guild) (bl : List Nat)
    (isVoice : Bool) (current : List Member) (m : OWFun) (q : Principal) :
    hide_room_channel g bl isVoice current
        (hide_room_channel g bl isVoice current m) q =
      hide_room_channel g bl isVoice current m q := by
  rw [hide_room_channel_apply g bl isVoice current
        (hide_room_channel g bl isVoice current m) q,
      hide_room_channel_apply g bl isVoice current m q]
  cases hd : deniedBy g bl q
  · cases ho : occAllowed current q
    · simp only [Bool.false_eq_true, if_false]
      cases q with
      | member u =>
        cases hub : u.bot
        · simp [hideResetPass, hub]
        · simp only [hideResetPass, hub, if_true]
          rw [hide_room_channel_apply]
          simp [hd, ho, hideResetPass, hub]
      | defaultRole =>
        simp only [hideResetPass]
        rw [hide_room_channel_apply]
        simp [hd, ho, hideResetPass]
      | botMe =>
        simp only [hideResetPass]
        rw [hide_room_channel_apply]
        simp [hd, ho, hideResetPass]
      | role rid =>
        simp only [hideResetPass]
        rw [hide_room_channel_apply]
        simp [hd, ho, hideResetPass]
    · simp [ho]
  · simp [hd]

theorem get_member_id (g : Guild) (uid : Nat) (u : Member)
    (h : g.get_member uid = some u) : u.id = uid := by
  unfold Guild.get_member at h
  simpa using List.find?_some h

theorem deniedBy_of_mem (g : Guild) (bl : List Nat) (uid : Nat) (u : Member)
    (hm : uid ∈ bl) (hg : g.get_member uid = some u) :
    deniedBy g bl (Principal.member u) = true := by
  induction bl with
  | nil => cases hm
  | cons x rest ih =>
    rcases List.mem_cons.mp hm with h | h
    · subst h
      simp [deniedBy, hg]
    · simp [deniedBy, ih h]

theorem deniedBy_not_member (g : Guild) (bl : List Nat) (q : Principal)
    (h : ∀ u : Member, q ≠ Principal.member u) :
    deniedBy g bl q = false := by
  induction bl with
  | nil => rfl
  | cons x rest ih =>
    cases hgm : g.get_member x <;> simp [deniedBy, hgm, ih, h]

theorem deniedBy_member_not_blocked (g : Guild) (bl : List Nat)
    (cid : Nat) (c : Member) (hc : g.get_member cid = some c)
    (hn : cid ∉ bl) : deniedBy g bl (Principal.member c) = false := by
  induction bl with
  | nil => rfl
  | cons x rest ih =>
    have hx : x ≠ cid := fun h => hn (h ▸ List.mem_cons_self x rest)
    have hr : cid ∉ rest := fun h => hn (List.mem_cons_of_mem x h)
    cases hgm : g.get_member x with
    | none => simp [deniedBy, hgm, ih hr]
    | some u =>
      have hne : Principal.member c ≠ Principal.member u := by
        intro h
        have hcu : c = u := by injection h
        exact hx ((get_member_id g x u hgm) ▸ hcu ▸
          (get_member_id g cid c hc).symm ▸ rfl)
      simp [deniedBy, hgm, ih hr, hne]

/-- C1: for every room in the full state (human occupant count ≥ 2), every
user in the room creator's blacklist who is a guild member ends up with the
deny overwrite (`view_channel`, `read_messages`, `send_messages`, `connect`
all `False`) on BOTH the text and the voice channel after reconciliation —
including when that user is simultaneously a current occupant, because the
blacklist re-denial pass of `hide_room` runs after the
allow-all-present-occupants pass, so its write wins. -/
theorem c1_blacklist_deny_dominates (g : Guild) (storeFail : Bool)
    (bldb : List BLRow) (rooms : List RoomRow) (vid : Nat)
    (textCh voiceCh : Channel) (ms : List Member) (row : RoomRow)
    (uid : Nat) (u : Member)
    (hrow : rooms.find? (fun r => decide (r.voice_channel_id = vid)) =
      some row)
    (hfull : 2 ≤ humanCount ms)
    (hbl : uid ∈ get_blacklist storeFail bldb row.creator_id)
    (hgm : g.get_member uid = some u) :
    check_room_capacity g storeFail bldb rooms vid textCh voiceCh ms =
      some (reconcile g storeFail bldb row textCh voiceCh ms) ∧
    (reconcile g storeFail bldb row textCh voiceCh ms).branch =
      Branch.full ∧
    (reconcile g storeFail bldb row textCh voiceCh ms).textCh.ow
        (Principal.member u) =
      some ⟨some false, some false, some false, some false, none⟩ ∧
    (reconcile g storeFail bldb row textCh voiceCh ms).voiceCh.ow
        (Principal.member u) =
      some ⟨some false, some false, some false, some false, none⟩ := by
  have hden := deniedBy_of_mem g
    (get_blacklist storeFail bldb row.creator_id) uid u hbl hgm
  refine ⟨?_, ?_, ?_, ?_⟩
  · simp [check_room_capacity, hrow]
  · simp [reconcile, hfull]
  · simp only [reconcile, if_pos hfull, hide_room]
    rw [hide_room_channel_apply]
    simp [hden, owDenyAll]
  · simp only [reconcile, if_pos hfull, hide_room]
    rw [hide_room_channel_apply]
    simp [hden, owDenyAll]

def w1g : Guild := ⟨[⟨1, false⟩, ⟨2, false⟩], [], none, none⟩

def w1row : RoomRow := ⟨1, 10, 20, 5, 0, 7, "all", ""⟩

def w1bl : List BLRow := [⟨5, 2, "", 0⟩]

def w1t : Channel := ⟨owEmpty, 0, false⟩

def w1v : Channel := ⟨owEmpty, 0, true⟩

def w1ms : List Member := [⟨1, false⟩, ⟨2, false⟩]

/-- Witness for C1 at a concrete room: creator 5 has blocked user 2, user 2
is one of the two present human occupants, and both channels still end up
denying user 2. -/
theorem c1_blacklist_deny_dominates_witness :
    ([w1row].find? (fun r => decide (r.voice_channel_id = 20)) =
      some w1row) ∧
    2 ≤ humanCount w1ms ∧
    2 ∈ get_blacklist false w1bl w1row.creator_id ∧
    w1g.get_member 2 = some ⟨2, false⟩ ∧
    (reconcile w1g false w1bl w1row w1t w1v w1ms).textCh.ow
        (Principal.member ⟨2, false⟩) =
      some ⟨some false, some false, some false, some false, none⟩ ∧
    (reconcile w1g false w1bl w1row w1t w1v w1ms).voiceCh.ow
        (Principal.member ⟨2, false⟩) =
      some ⟨some false, some false, some false, some false, none⟩ :=
  ⟨by decide, by decide, by decide, by decide,
   (c1_blacklist_deny_dominates w1g false w1bl [w1row] 20 w1t w1v w1ms
      w1row 2 ⟨2, false⟩ (by decide) (by decide) (by decide)
      (by decide)).2.2.1,
   (c1_blacklist_deny_dominates w1g false w1bl [w1row] 20 w1t w1v w1ms
      w1row 2 ⟨2, false⟩ (by decide) (by decide) (by decide)
      (by decide)).2.2.2⟩

/-- Reconciling a second time, from the channels produced by a first pass
with the same occupancy, reproduces exactly the first result. -/
theorem reconcile_idem (g : Guild) (storeFail : Bool) (bldb : List BLRow)
    (row : RoomRow) (t v : Channel) (ms : List Member) :
    reconcile g storeFail bldb row
        (reconcile g storeFail bldb row t v ms).textCh
        (reconcile g storeFail bldb row t v ms).voiceCh ms =
      reconcile g storeFail bldb row t v ms := by
  by_cases hfull : 2 ≤ humanCount ms
  · have ht : hide_room_channel g (get_blacklist storeFail bldb row.creator_id)
        t.isVoice ms (hide_room_channel g
          (get_blacklist storeFail bldb row.creator_id) t.isVoice ms t.ow) =
        hide_room_channel g (get_blacklist storeFail bldb row.creator_id)
          t.isVoice ms t.ow :=
      funext (hide_room_channel_idem g _ t.isVoice ms t.ow)
    have hv : hide_room_channel g (get_blacklist storeFail bldb row.creator_id)
        v.isVoice ms (hide_room_channel g
          (get_blacklist storeFail bldb row.creator_id) v.isVoice ms v.ow) =
        hide_room_channel g (get_blacklist storeFail bldb row.creator_id)
          v.isVoice ms v.ow :=
      funext (hide_room_channel_idem g _ v.isVoice ms v.ow)
    simp only [reconcile, if_pos hfull, hide_room]
    congr 1
    · rw [ht]
    · rw [hv]
  · simp only [reconcile, if_neg hfull, show_room]

/-- C2: reconciliation is idempotent.  For a registered room, running
`check_room_capacity` a second time — with the voice channel's member set
unchanged and starting from the channels produced by the first pass —
returns exactly the first result: the same branch, the same
permission-overwrite map on both channels, and the same occupancy cap.  The
second invocation changes nothing. -/
theorem c2_reconciliation_idempotent (g : Guild) (storeFail : Bool)
    (bldb : List BLRow) (rooms : List RoomRow) (vid : Nat)
    (t v : Channel) (ms : List Member) (row : RoomRow)
    (hrow : rooms.find? (fun r => decide (r.voice_channel_id = vid)) =
      some row) :
    check_room_capacity g storeFail bldb rooms vid t v ms =
      some (reconcile g storeFail bldb row t v ms) ∧
    check_room_capacity g storeFail bldb rooms vid
        (reconcile g storeFail bldb row t v ms).textCh
        (reconcile g storeFail bldb row t v ms).voiceCh ms =
      some (reconcile g storeFail bldb row t v ms) := by
  constructor
  · simp [check_room_capacity, hrow]
  · simp [check_room_capacity, hrow, reconcile_idem]

def w2g : Guild := ⟨[⟨1, false⟩, ⟨2, false⟩, ⟨5, false⟩], [7], some 3, some 4⟩

def w2row : RoomRow := ⟨1, 10, 20, 5, 0, 7, "all", ""⟩

def w2bl : List BLRow := [⟨5, 2, "", 0⟩]

def w2t : Channel := ⟨owEmpty, 0, false⟩

def w2v : Channel := ⟨owEmpty, 0, true⟩

def w2ms : List Member := [⟨1, false⟩, ⟨2, false⟩]

/-- Witness for C2 at a concrete full room (two human occupants, one of
them blacklisted): the second reconciliation pass returns the first
result. -/
theorem c2_reconciliation_idempotent_witness :
    ([w2row].find? (fun r => decide (r.voice_channel_id = 20)) =
      some w2row) ∧
    (check_room_capacity w2g false w2bl [w2row] 20 w2t w2v w2ms =
      some (reconcile w2g false w2bl w2row w2t w2v w2ms) ∧
    check_room_capacity w2g false w2bl [w2row] 20
        (reconcile w2g false w2bl w2row w2t w2v w2ms).textCh
        (reconcile w2g false w2bl w2row w2t w2v w2ms).voiceCh w2ms =
      some (reconcile w2g false w2bl w2row w2t w2v w2ms)) :=
  ⟨by decide,
   c2_reconciliation_idempotent w2g false w2bl [w2row] 20 w2t w2v w2ms w2row
     (by decide)⟩

theorem find?_self_of_mem (l : List Nat) (rid : Nat) (h : rid ∈ l) :
    l.find? (fun r => decide (r = rid)) = some rid := by
  induction l with
  | nil => cases h
  | cons x xs ih =>
    by_cases hx : x = rid
    · subst hx
      exact List.find?_cons_of_pos _ (by simp)
    · rw [List.find?_cons_of_neg _ (by simp [hx])]
      rcases List.mem_cons.mp h with h1 | h1
      · exact absurd h1.symm hx
      · exact ih h1

theorem get_role_of_mem (g : Guild) (rid : Nat) (h : rid ∈ g.roles) :
    g.get_role rid = some rid :=
  find?_self_of_mem g.roles rid h

/-- The gender pass of `show_room` only writes the entries of the existing
male / female roles. -/
theorem show_gender_pass_skip (g : Guild) (gender : String) (m : OWFun)
    (q : Principal)
    (hm : ∀ mr, g.maleRole = some mr → q ≠ Principal.role mr)
    (hf : ∀ fr, g.femaleRole = some fr → q ≠ Principal.role fr) :
    show_gender_pass g gender m q = m q := by
  unfold show_gender_pass
  cases hmr : g.maleRole with
  | none =>
    cases hfr : g.femaleRole with
    | none => split_ifs <;> rfl
    | some fr =>
      have h2 := hf fr hfr
      split_ifs <;> simp [owSet, h2]
  | some mr =>
    have h1 := hm mr hmr
    cases hfr : g.femaleRole with
    | none => split_ifs <;> simp [owSet, h1]
    | some fr =>
      have h2 := hf fr hfr
      split_ifs <;> simp [owSet, h1, h2]

theorem show_overwrites_default (g : Guild) (role_id creator_id : Nat)
    (gender : String) :
    show_overwrites g role_id creator_id gender Principal.defaultRole =
      some owViewFalse := by
  simp only [show_overwrites]
  have hskip : ∀ m1 : OWFun,
      show_gender_pass g gender m1 Principal.defaultRole =
        m1 Principal.defaultRole :=
    fun m1 => show_gender_pass_skip g gender m1 Principal.defaultRole
      (fun mr _ => by simp) (fun fr _ => by simp)
  cases hgc : g.get_member creator_id with
  | none =>
    dsimp only
    rw [hskip]
    cases hh : (if role_id ≠ 0 then g.get_role role_id else none) <;>
      simp [owSet, owEmpty]
  | some c =>
    dsimp only
    rw [owSet_apply, if_neg (by simp), hskip]
    cases hh : (if role_id ≠ 0 then g.get_role role_id else none) <;>
      simp [owSet, owEmpty]

theorem show_overwrites_creator (g : Guild) (role_id creator_id : Nat)
    (gender : String) (c : Member)
    (hc : g.get_member creator_id = some c) :
    show_overwrites g role_id creator_id gender (Principal.member c) =
      some owCreatorShow := by
  simp only [show_overwrites, hc]
  simp [owSet]

theorem show_overwrites_hidden (g : Guild) (role_id creator_id : Nat)
    (gender : String) (h0 : role_id ≠ 0) (hin : role_id ∈ g.roles)
    (hm : ∀ mr, g.maleRole = some mr → role_id ≠ mr)
    (hf : ∀ fr, g.femaleRole = some fr → role_id ≠ fr) :
    show_overwrites g role_id creator_id gender
        (Principal.role role_id) = some owViewFalse := by
  simp only [show_overwrites]
  have hskip : ∀ m1 : OWFun,
      show_gender_pass g gender m1 (Principal.role role_id) =
        m1 (Principal.role role_id) :=
    fun m1 => show_gender_pass_skip g gender m1 _
      (fun mr hmr => by simp [hm mr hmr])
      (fun fr hfr => by simp [hf fr hfr])
  have hh : (if role_id ≠ 0 then g.get_role role_id else none) =
      some role_id := by
    rw [if_pos h0, get_role_of_mem g role_id hin]
  cases hgc : g.get_member creator_id with
  | none =>
    dsimp only
    rw [hskip, hh]
    simp [owSet]
  | some c =>
    dsimp only
    rw [owSet_apply, if_neg (by simp), hskip, hh]
    simp [owSet]

theorem show_overwrites_gender_all (g : Guild) (role_id creator_id : Nat)
    (mr fr : Nat) (hmr : g.maleRole = some mr) (hfr : g.femaleRole = some fr)
    (hne : mr ≠ fr) :
    show_overwrites g role_id creator_id "all" (Principal.role mr) =
      some owViewTrue ∧
    show_overwrites g role_id creator_id "all" (Principal.role fr) =
      some owViewTrue := by
  constructor <;>
  · simp only [show_overwrites]
    cases hgc : g.get_member creator_id <;>
      simp [show_gender_pass, hmr, hfr, owSet, hne, hne.symm]

theorem show_overwrites_gender_male (g : Guild) (role_id creator_id : Nat)
    (mr fr : Nat) (hmr : g.maleRole = some mr) (hfr : g.femaleRole = some fr)
    (hne : mr ≠ fr) :
    show_overwrites g role_id creator_id "male" (Principal.role mr) =
      some owViewTrue ∧
    show_overwrites g role_id creator_id "male" (Principal.role fr) =
      some owViewFalse := by
  constructor <;>
  · simp only [show_overwrites]
    cases hgc : g.get_member creator_id <;>
      simp [show_gender_pass, hmr, hfr, owSet, hne, hne.symm]

theorem show_overwrites_gender_female (g : Guild) (role_id creator_id : Nat)
    (mr fr : Nat) (hmr : g.maleRole = some mr) (hfr : g.femaleRole = some fr)
    (hne : mr ≠ fr) :
    show_overwrites g role_id creator_id "female" (Principal.role fr) =
      some owViewTrue ∧
    show_overwrites g role_id creator_id "female" (Principal.role mr) =
      some owViewFalse := by
  constructor <;>
  · simp only [show_overwrites]
    cases hgc : g.get_member creator_id <;>
      simp [show_gender_pass, hmr, hfr, owSet, hne, hne.symm]

/-- C3: reconciliation takes the hidden (`full`) branch exactly when the
number of non-bot occupants is at least 2; otherwise (0 or 1 humans,
including the empty room, which uses the same category rule rather than a
separate empty rule) it applies the open-state rule on both channels:
category `male` allows the 男性 role and denies the 女性 role, `female` the
converse, `all` allows both; the default `@everyone` principal and the
room's hidden role are denied and the creator is explicitly allowed. -/
theorem c3_branch_selection_and_open_rule (g : Guild) (storeFail : Bool)
    (bldb : List BLRow) (rooms : List RoomRow) (vid : Nat)
    (t v : Channel) (ms : List Member) (row : RoomRow)
    (mr fr : Nat) (c : Member)
    (hrow : rooms.find? (fun r => decide (r.voice_channel_id = vid)) =
      some row)
    (hmr : g.maleRole = some mr) (hfr : g.femaleRole = some fr)
    (hmf : mr ≠ fr)
    (hr0 : row.role_id ≠ 0) (hrin : row.role_id ∈ g.roles)
    (hrm : row.role_id ≠ mr) (hrf : row.role_id ≠ fr)
    (hc : g.get_member row.creator_id = some c)
    (hself : row.creator_id ∉ get_blacklist storeFail bldb row.creator_id) :
    check_room_capacity g storeFail bldb rooms vid t v ms =
      some (reconcile g storeFail bldb row t v ms) ∧
    ((reconcile g storeFail bldb row t v ms).branch = Branch.full ↔
      2 ≤ humanCount ms) ∧
    (ms = [] →
      (reconcile g storeFail bldb row t v ms).branch = Branch.opened) ∧
    (humanCount ms < 2 →
      ∀ ch ∈ [(reconcile g storeFail bldb row t v ms).textCh,
              (reconcile g storeFail bldb row t v ms).voiceCh],
        ch.ow Principal.defaultRole = some owViewFalse ∧
        ch.ow (Principal.role row.role_id) = some owViewFalse ∧
        ch.ow (Principal.member c) = some owCreatorShow ∧
        (row.gender = "male" →
          ch.ow (Principal.role mr) = some owViewTrue ∧
          ch.ow (Principal.role fr) = some owViewFalse) ∧
        (row.gender = "female" →
          ch.ow (Principal.role fr) = some owViewTrue ∧
          ch.ow (Principal.role mr) = some owViewFalse) ∧
        (row.gender = "all" →
          ch.ow (Principal.role mr) = some owViewTrue ∧
          ch.ow (Principal.role fr) = some owViewTrue)) := by
  refine ⟨by simp [check_room_capacity, hrow], ?_, ?_, ?_⟩
  · unfold reconcile
    split_ifs with h <;> simp [h]
  · intro hms
    subst hms
    unfold reconcile
    rw [if_neg (by decide)]
  · intro hopen
    have hbr : ¬ 2 ≤ humanCount ms := by omega
    have hmain : ∀ KEY : Principal,
        (∀ u : Member, KEY ≠ Principal.member u) →
        blacklistPass g (get_blacklist storeFail bldb row.creator_id)
            owDenyAll
            (show_overwrites g row.role_id row.creator_id row.gender) KEY =
          show_overwrites g row.role_id row.creator_id row.gender KEY := by
      intro KEY hK
      rw [blacklistPass_apply, deniedBy_not_member g _ KEY hK]
      simp
    have hcr : blacklistPass g (get_blacklist storeFail bldb row.creator_id)
        owDenyAll (show_overwrites g row.role_id row.creator_id row.gender)
          (Principal.member c) =
        show_overwrites g row.role_id row.creator_id row.gender
          (Principal.member c) := by
      rw [blacklistPass_apply,
        deniedBy_member_not_blocked g _ row.creator_id c hc hself]
      simp
    have hfacts :
        blacklistPass g (get_blacklist storeFail bldb row.creator_id)
            owDenyAll
            (show_overwrites g row.role_id row.creator_id row.gender)
            Principal.defaultRole = some owViewFalse ∧
        blacklistPass g (get_blacklist storeFail bldb row.creator_id)
            owDenyAll
            (show_overwrites g row.role_id row.creator_id row.gender)
            (Principal.role row.role_id) = some owViewFalse ∧
        blacklistPass g (get_blacklist storeFail bldb row.creator_id)
            owDenyAll
            (show_overwrites g row.role_id row.creator_id row.gender)
            (Principal.member c) = some owCreatorShow ∧
        (row.gender = "male" →
          blacklistPass g (get_blacklist storeFail bldb row.creator_id)
              owDenyAll
              (show_overwrites g row.role_id row.creator_id row.gender)
              (Principal.role mr) = some owViewTrue ∧
          blacklistPass g (get_blacklist storeFail bldb row.creator_id)
              owDenyAll
              (show_overwrites g row.role_id row.creator_id row.gender)
              (Principal.role fr) = some owViewFalse) ∧
        (row.gender = "female" →
          blacklistPass g (get_blacklist storeFail bldb row.creator_id)
              owDenyAll
              (show_overwrites g row.role_id row.creator_id row.gender)
              (Principal.role fr) = some owViewTrue ∧
          blacklistPass g (get_blacklist storeFail bldb row.creator_id)
              owDenyAll
              (show_overwrites g row.role_id row.creator_id row.gender)
              (Principal.role mr) = some owViewFalse) ∧
        (row.gender = "all" →
          blacklistPass g (get_blacklist storeFail bldb row.creator_id)
              owDenyAll
              (show_overwrites g row.role_id row.creator_id row.gender)
              (Principal.role mr) = some owViewTrue ∧
          blacklistPass g (get_blacklist storeFail bldb row.creator_id)
              owDenyAll
              (show_overwrites g row.role_id row.creator_id row.gender)
              (Principal.role fr) = some owViewTrue) := by
      refine ⟨?_, ?_, ?_, ?_, ?_, ?_⟩
      · rw [hmain _ (fun u h => Principal.noConfusion h)]
        exact show_overwrites_default g row.role_id row.creator_id row.gender
      · rw [hmain _ (fun u h => Principal.noConfusion h)]
        exact show_overwrites_hidden g row.role_id row.creator_id row.gender
          hr0 hrin
          (fun mr' h => by rw [hmr] at h; injection h with h2; subst h2; exact hrm)
          (fun fr' h => by rw [hfr] at h; injection h with h2; subst h2; exact hrf)
      · rw [hcr]
        exact show_overwrites_creator g row.role_id row.creator_id row.gender c hc
      · intro hg
        rw [hmain _ (fun u h => Principal.noConfusion h),
            hmain _ (fun u h => Principal.noConfusion h), hg]
        exact show_overwrites_gender_male g row.role_id row.creator_id mr fr
          hmr hfr hmf
      · intro hg
        rw [hmain _ (fun u h => Principal.noConfusion h),
            hmain _ (fun u h => Principal.noConfusion h), hg]
        exact show_overwrites_gender_female g row.role_id row.creator_id mr fr
          hmr hfr hmf
      · intro hg
        rw [hmain _ (fun u h => Principal.noConfusion h),
            hmain _ (fun u h => Principal.noConfusion h), hg]
        exact show_overwrites_gender_all g row.role_id row.creator_id mr fr
          hmr hfr hmf
    intro ch hch
    have howt : (reconcile g storeFail bldb row t v ms).textCh.ow =
        blacklistPass g (get_blacklist storeFail bldb row.creator_id)
          owDenyAll
          (show_overwrites g row.role_id row.creator_id row.gender) := by
      simp [reconcile, hbr, show_room]
    have howv : (reconcile g storeFail bldb row t v ms).voiceCh.ow =
        blacklistPass g (get_blacklist storeFail bldb row.creator_id)
          owDenyAll
          (show_overwrites g row.role_id row.creator_id row.gender) := by
      simp [reconcile, hbr, show_room]
    rcases List.mem_cons.mp hch with h1 | h1
    · subst h1
      rw [howt]
      exact hfacts
    · rw [List.mem_singleton] at h1
      subst h1
      rw [howv]
      exact hfacts

def w3g : Guild := ⟨[⟨5, false⟩], [7], some 3, some 4⟩

def w3row : RoomRow := ⟨1, 10, 20, 5, 0, 7, "all", ""⟩

def w3t : Channel := ⟨owEmpty, 0, false⟩

def w3v : Channel := ⟨owEmpty, 0, true⟩

/-- Witness for C3 at a concrete empty room of category `all`: male role 3,
female role 4, hidden role 7, creator 5 present in the guild and not
self-blocked. -/
theorem c3_branch_selection_and_open_rule_witness :
    ([w3row].find? (fun r => decide (r.voice_channel_id = 20)) =
      some w3row) ∧
    w3row.role_id ∈ w3g.roles ∧
    w3g.get_member w3row.creator_id = some ⟨5, false⟩ ∧
    w3row.creator_id ∉ get_blacklist false [] w3row.creator_id ∧
    check_room_capacity w3g false [] [w3row] 20 w3t w3v [] =
      some (reconcile w3g false [] w3row w3t w3v []) :=
  ⟨by decide, by decide, by decide, by decide,
   (c3_branch_selection_and_open_rule w3g false [] [w3row] 20 w3t w3v []
      w3row 3 4 ⟨5, false⟩ (by decide) rfl rfl (by decide) (by decide)
      (by decide) (by decide) (by decide) (by decide) (by decide)).1⟩

/-- C4: whenever reconciliation runs for a registered room, the voice
channel's numeric `user_limit` afterwards equals
`humanCount + botCount + 1` computed from the occupancy observed at this
pass — whatever the previous limit was (it is recomputed, never frozen or
ratcheted) and whichever of the hidden/open branches was taken. -/
theorem c4_user_limit_recomputed (g : Guild) (storeFail : Bool)
    (bldb : List BLRow) (rooms : List RoomRow) (vid : Nat)
    (t v : Channel) (ms : List Member) (row : RoomRow)
    (hrow : rooms.find? (fun r => decide (r.voice_channel_id = vid)) =
      some row) :
    check_room_capacity g storeFail bldb rooms vid t v ms =
      some (reconcile g storeFail bldb row t v ms) ∧
    (reconcile g storeFail bldb row t v ms).voiceCh.user_limit =
      humanCount ms + botCount ms + 1 := by
  refine ⟨by simp [check_room_capacity, hrow], ?_⟩
  unfold reconcile
  split_ifs <;> simp [hide_room, show_room]

def w4row : RoomRow := ⟨1, 10, 20, 5, 0, 7, "all", ""⟩

def w4g : Guild := ⟨[⟨1, false⟩, ⟨2, false⟩, ⟨3, true⟩], [7], some 3, some 4⟩

def w4t : Channel := ⟨owEmpty, 0, false⟩

def w4v : Channel := ⟨owEmpty, 99, true⟩

def w4ms : List Member := [⟨1, false⟩, ⟨2, false⟩, ⟨3, true⟩]

/-- Witness for C4: two humans and one bot present, previous limit 99 — the
new cap is 2 + 1 + 1 = 4, ignoring the stale 99. -/
theorem c4_user_limit_recomputed_witness :
    ([w4row].find? (fun r => decide (r.voice_channel_id = 20)) =
      some w4row) ∧
    (reconcile w4g false [] w4row w4t w4v w4ms).voiceCh.user_limit =
      humanCount w4ms + botCount w4ms + 1 :=
  ⟨by decide,
   (c4_user_limit_recomputed w4g false [] [w4row] 20 w4t w4v w4ms w4row
      (by decide)).2⟩

/-- C5: a creation request from a creator who already owns an active room
is rejected by the registry check that runs before any provisioning: no
category, role or channel creation call is issued (`actions = []`), the
registry is unchanged, and no overwrite set is built. -/
theorem c5_duplicate_room_no_provisioning (g : Guild) (storeFail : Bool)
    (bldb : List BLRow) (rooms : List RoomRow) (categoryExists : Bool)
    (creator : Member) (gender room_message : String)
    (newTextId newVoiceId newRoleId newRoomId now : Nat)
    (hdup : get_rooms_by_creator rooms creator.id ≠ []) :
    create_room_with_gender g storeFail bldb rooms categoryExists creator
        gender room_message newTextId newVoiceId newRoleId newRoomId now =
      { rooms := rooms, actions := [], ows := none, success := false } := by
  simp [create_room_with_gender, hdup]

def w5rooms : List RoomRow := [⟨1, 10, 20, 5, 0, 7, "all", ""⟩]

/-- Witness for C5: creator 5 already owns the room `(10, 20)`; a second
request changes nothing and provisions nothing. -/
theorem c5_duplicate_room_no_provisioning_witness :
    get_rooms_by_creator w5rooms 5 ≠ [] ∧
    create_room_with_gender ⟨[⟨5, false⟩], [], none, none⟩ false [] w5rooms
        true ⟨5, false⟩ "all" "" 11 21 8 2 0 =
      { rooms := w5rooms, actions := [], ows := none, success := false } :=
  ⟨by decide,
   c5_duplicate_room_no_provisioning ⟨[⟨5, false⟩], [], none, none⟩ false []
     w5rooms true ⟨5, false⟩ "all" "" 11 21 8 2 0 (by decide)⟩

theorem find?_eq_some_of_unique {α : Type} (p : α → Bool) (l : List α)
    (a : α) (ha : a ∈ l) (hpa : p a = true)
    (huniq : ∀ b ∈ l, p b = true → b = a) : l.find? p = some a := by
  induction l with
  | nil => cases ha
  | cons x xs ih =>
    by_cases hx : p x = true
    · have hxa : x = a := huniq x (List.mem_cons_self x xs) hx
      subst hxa
      exact List.find?_cons_of_pos _ hx
    · rw [List.find?_cons_of_neg _ hx]
      apply ih
      · rcases List.mem_cons.mp ha with h1 | h1
        · exact absurd (h1 ▸ hpa) hx
        · exact h1
      · exact fun b hb hpb => huniq b (List.mem_cons_of_mem x hb) hpb

theorem find?_eq_none_of_all {α : Type} (p : α → Bool) (l : List α)
    (h : ∀ b ∈ l, ¬ p b = true) : l.find? p = none :=
  List.find?_eq_none.mpr h

/-- C6: for an active room whose channel ids are not shared with any other
registered room, `remove_room` invoked with the text channel id and
`remove_room` invoked with the voice channel id both return the room's
`(role_id, creator_id, other_channel_id)` data — identical `role_id` and
`creator_id`, with `other_channel_id` the counterpart channel's id in each
case — and afterwards the room record is no longer found by `get_room_info`
on either channel id. -/
theorem c6_remove_room_either_id (rooms : List RoomRow) (R : RoomRow)
    (hmem : R ∈ rooms)
    (ht0 : R.text_channel_id ≠ 0) (hv0 : R.voice_channel_id ≠ 0)
    (huniq : ∀ r ∈ rooms,
      (r.text_channel_id = R.text_channel_id ∨
       r.voice_channel_id = R.voice_channel_id ∨
       r.text_channel_id = R.voice_channel_id ∨
       r.voice_channel_id = R.text_channel_id) → r = R) :
    (remove_room rooms (some R.text_channel_id) none).2 =
      some (R.role_id, R.creator_id, R.voice_channel_id) ∧
    (remove_room rooms none (some R.voice_channel_id)).2 =
      some (R.role_id, R.creator_id, R.text_channel_id) ∧
    get_room_info (remove_room rooms (some R.text_channel_id) none).1
      R.text_channel_id = none ∧
    get_room_info (remove_room rooms (some R.text_channel_id) none).1
      R.voice_channel_id = none ∧
    get_room_info (remove_room rooms none (some R.voice_channel_id)).1
      R.text_channel_id = none ∧
    get_room_info (remove_room rooms none (some R.voice_channel_id)).1
      R.voice_channel_id = none := by
  have hfindT : rooms.find?
      (fun r => decide (r.text_channel_id = R.text_channel_id)) = some R :=
    find?_eq_some_of_unique _ rooms R hmem (by simp)
      (fun b hb hpb => huniq b hb (Or.inl (of_decide_eq_true hpb)))
  have hfindV : rooms.find?
      (fun r => decide (r.voice_channel_id = R.voice_channel_id)) = some R :=
    find?_eq_some_of_unique _ rooms R hmem (by simp)
      (fun b hb hpb => huniq b hb (Or.inr (Or.inl (of_decide_eq_true hpb))))
  have hremT : remove_room rooms (some R.text_channel_id) none =
      (rooms.filter
        (fun r2 => !(decide (r2.text_channel_id = R.text_channel_id))),
       some (R.role_id, R.creator_id, R.voice_channel_id)) := by
    simp [remove_room, pyTruthyId, ht0, remove_room_by_text, hfindT]
  have hremV : remove_room rooms none (some R.voice_channel_id) =
      (rooms.filter
        (fun r2 => !(decide (r2.voice_channel_id = R.voice_channel_id))),
       some (R.role_id, R.creator_id, R.text_channel_id)) := by
    simp [remove_room, pyTruthyId, hv0, remove_room_by_voice, hfindV]
  have hnotext : ∀ x : Nat,
      (x = R.text_channel_id ∨ x = R.voice_channel_id) →
      get_room_info (rooms.filter
        (fun r2 => !(decide (r2.text_channel_id = R.text_channel_id)))) x =
        none := by
    intro x hx
    have h0 : (rooms.filter
        (fun r2 => !(decide (r2.text_channel_id = R.text_channel_id)))).find?
        (fun r => decide (r.text_channel_id = x ∨
                          r.voice_channel_id = x)) = none := by
      apply find?_eq_none_of_all
      intro b hb hpb
      rcases List.mem_filter.mp hb with ⟨hbm, hbc⟩
      have hbne : b.text_channel_id ≠ R.text_channel_id := by simpa using hbc
      have hor := of_decide_eq_true hpb
      have hbR : b = R := by
        rcases hx with rfl | rfl
        · rcases hor with h | h
          · exact huniq b hbm (Or.inl h)
          · exact huniq b hbm (Or.inr (Or.inr (Or.inr h)))
        · rcases hor with h | h
          · exact huniq b hbm (Or.inr (Or.inr (Or.inl h)))
          · exact huniq b hbm (Or.inr (Or.inl h))
      exact hbne (by rw [hbR])
    unfold get_room_info
    rw [h0]
    rfl
  have hnovoice : ∀ x : Nat,
      (x = R.text_channel_id ∨ x = R.voice_channel_id) →
      get_room_info (rooms.filter
        (fun r2 => !(decide (r2.voice_channel_id = R.voice_channel_id)))) x =
        none := by
    intro x hx
    have h0 : (rooms.filter
        (fun r2 => !(decide (r2.voice_channel_id = R.voice_channel_id)))).find?
        (fun r => decide (r.text_channel_id = x ∨
                          r.voice_channel_id = x)) = none := by
      apply find?_eq_none_of_all
      intro b hb hpb
      rcases List.mem_filter.mp hb with ⟨hbm, hbc⟩
      have hbne : b.voice_channel_id ≠ R.voice_channel_id := by simpa using hbc
      have hor := of_decide_eq_true hpb
      have hbR : b = R := by
        rcases hx with rfl | rfl
        · rcases hor with h | h
          · exact huniq b hbm (Or.inl h)
          · exact huniq b hbm (Or.inr (Or.inr (Or.inr h)))
        · rcases hor with h | h
          · exact huniq b hbm (Or.inr (Or.inr (Or.inl h)))
          · exact huniq b hbm (Or.inr (Or.inl h))
      exact hbne (by rw [hbR])
    unfold get_room_info
    rw [h0]
    rfl
  refine ⟨by rw [hremT], by rw [hremV], ?_, ?_, ?_, ?_⟩
  · rw [hremT]
    exact hnotext R.text_channel_id (Or.inl rfl)
  · rw [hremT]
    exact hnotext R.voice_channel_id (Or.inr rfl)
  · rw [hremV]
    exact hnovoice R.text_channel_id (Or.inl rfl)
  · rw [hremV]
    exact hnovoice R.voice_channel_id (Or.inr rfl)

def w6R : RoomRow := ⟨1, 10, 20, 5, 0, 7, "all", ""⟩

/-- Witness for C6 on a registry holding just the room `(text 10, voice
20)`: deletion keyed by either id returns role 7, creator 5 and the
counterpart channel, and afterwards the record is gone. -/
theorem c6_remove_room_either_id_witness :
    w6R ∈ [w6R] ∧
    (∀ r ∈ [w6R],
      (r.text_channel_id = w6R.text_channel_id ∨
       r.voice_channel_id = w6R.voice_channel_id ∨
       r.text_channel_id = w6R.voice_channel_id ∨
       r.voice_channel_id = w6R.text_channel_id) → r = w6R) ∧
    (remove_room [w6R] (some w6R.text_channel_id) none).2 =
      some (w6R.role_id, w6R.creator_id, w6R.voice_channel_id) ∧
    (remove_room [w6R] none (some w6R.voice_channel_id)).2 =
      some (w6R.role_id, w6R.creator_id, w6R.text_channel_id) ∧
    get_room_info (remove_room [w6R] none (some w6R.voice_channel_id)).1
      w6R.text_channel_id = none :=
  ⟨by decide, by decide,
   (c6_remove_room_either_id [w6R] w6R (by decide) (by decide) (by decide)
      (by decide)).1,
   (c6_remove_room_either_id [w6R] w6R (by decide) (by decide) (by decide)
      (by decide)).2.1,
   (c6_remove_room_either_id [w6R] w6R (by decide) (by decide) (by decide)
      (by decide)).2.2.2.2.1⟩

/-- The `(owner_id, blocked_user_id)` key column pair of the blacklist
table. -/
def blKeys (db : List BLRow) : List (Nat × Nat) :=
  db.map (fun r => (r.owner_id, r.blocked_user_id))

/-- The `PRIMARY KEY (owner_id, blocked_user_id)` table invariant: at most
one row per key pair. -/
def KeyUnique (db : List BLRow) : Prop := (blKeys db).Nodup

/-- One user-level blacklist operation as dispatched by the confirmation
UI: `Block` (`add_to_blacklist`) or `Unblock` (`remove_from_blacklist`),
each possibly hitting a failing store. -/
inductive BLOp where
  | block (storeFail : Bool) (owner_id blocked_user_id : Nat)
      (reason : String) (now : Nat)
  | unblock (storeFail : Bool) (owner_id blocked_user_id : Nat)

def applyBLOp (db : List BLRow) : BLOp → List BLRow
  | .block sf o b r t => add_to_blacklist sf db o b r t
  | .unblock sf o b => (remove_from_blacklist sf db o b).1

/-- Run a sequence of blacklist operations against the freshly initialised
(empty) table. -/
def applyBLOps (ops : List BLOp) : List BLRow :=
  ops.foldl applyBLOp []

theorem KeyUnique_upsert (db : List BLRow) (o b : Nat) (r : String)
    (t : Nat) (h : KeyUnique db) :
    KeyUnique ((db.filter (fun x =>
      !(decide (x.owner_id = o ∧ x.blocked_user_id = b)))) ++
      [⟨o, b, r, t⟩]) := by
  unfold KeyUnique blKeys at h ⊢
  rw [List.map_append, List.nodup_append]
  refine ⟨List.Nodup.sublist (List.Sublist.map _ (List.filter_sublist db)) h,
    by simp, ?_⟩
  intro k hk1 hk2
  simp only [List.map_cons, List.map_nil, List.mem_singleton] at hk2
  subst hk2
  rcases List.mem_map.mp hk1 with ⟨x, hx, hkey⟩
  rcases List.mem_filter.mp hx with ⟨hxm, hxc⟩
  have h1 : x.owner_id = o := congrArg Prod.fst hkey
  have h2 : x.blocked_user_id = b := congrArg Prod.snd hkey
  simp [h1, h2] at hxc

theorem KeyUnique_applyBLOp (db : List BLRow) (op : BLOp)
    (h : KeyUnique db) : KeyUnique (applyBLOp db op) := by
  cases op with
  | block sf o b r t =>
    cases sf with
    | true => simpa [applyBLOp, add_to_blacklist, safe_db_run] using h
    | false =>
      have h2 := KeyUnique_upsert db o b r t h
      simpa [applyBLOp, add_to_blacklist, safe_db_run] using h2
  | unblock sf o b =>
    cases sf with
    | true => simpa [applyBLOp, remove_from_blacklist, safe_db_run] using h
    | false =>
      have h2 : KeyUnique (db.filter (fun x =>
          !(decide (x.owner_id = o ∧ x.blocked_user_id = b)))) :=
        List.Nodup.sublist (List.Sublist.map _ (List.filter_sublist db)) h
      simpa [applyBLOp, remove_from_blacklist, safe_db_run] using h2

theorem KeyUnique_foldl (ops : List BLOp) (db : List BLRow)
    (h : KeyUnique db) : KeyUnique (ops.foldl applyBLOp db) := by
  induction ops generalizing db with
  | nil => simpa using h
  | cons op rest ih => exact ih _ (KeyUnique_applyBLOp db op h)

theorem length_filter_not_add_countP {α : Type} (p : α → Bool)
    (l : List α) :
    (l.filter (fun x => !(p x))).length + l.countP p = l.length := by
  induction l with
  | nil => rfl
  | cons x xs ih =>
    by_cases hx : p x = true <;>
      simp [List.filter_cons, List.countP_cons, hx] <;> omega

theorem countP_key_of_unique (db : List BLRow) (o b : Nat) (R : BLRow)
    (h : KeyUnique db) (hR : R ∈ db) (ho : R.owner_id = o)
    (hb : R.blocked_user_id = b) :
    db.countP (fun x =>
      decide (x.owner_id = o ∧ x.blocked_user_id = b)) = 1 := by
  induction db with
  | nil => cases hR
  | cons x xs ih =>
    have hsplit : (x.owner_id, x.blocked_user_id) ∉ blKeys xs ∧
        KeyUnique xs := by
      unfold KeyUnique blKeys at h
      exact List.nodup_cons.mp h
    rcases List.mem_cons.mp hR with h1 | h1
    · have hx : decide (x.owner_id = o ∧ x.blocked_user_id = b) = true := by
        rw [← h1]
        simp [ho, hb]
      have hzero : xs.countP (fun y =>
          decide (y.owner_id = o ∧ y.blocked_user_id = b)) = 0 := by
        rw [List.countP_eq_zero]
        intro y hy hpy
        have hyand : y.owner_id = o ∧ y.blocked_user_id = b :=
          of_decide_eq_true hpy
        apply hsplit.1
        have hox : x.owner_id = o := by rw [← h1]; exact ho
        have hbx : x.blocked_user_id = b := by rw [← h1]; exact hb
        rw [hox, hbx]
        exact List.mem_map.mpr ⟨y, hy, by rw [hyand.1, hyand.2]⟩
      rw [List.countP_cons, hzero]
      simp [hx]
    · have hxf : decide (x.owner_id = o ∧ x.blocked_user_id = b) = false := by
        by_contra hcon
        have hcon2 : decide (x.owner_id = o ∧ x.blocked_user_id = b) =
            true := by
          cases hd : decide (x.owner_id = o ∧ x.blocked_user_id = b)
          · exact absurd hd hcon
          · rfl
        rcases of_decide_eq_true hcon2 with ⟨hx1, hx2⟩
        apply hsplit.1
        rw [hx1, hx2]
        exact List.mem_map.mpr ⟨R, h1, by rw [ho, hb]⟩
      rw [List.countP_cons, ih hsplit.2 h1]
      simp [hxf]

theorem find?_append_none {α : Type} (p : α → Bool) (l1 l2 : List α)
    (h : l1.find? p = none) : (l1 ++ l2).find? p = l2.find? p := by
  rw [List.find?_append, h]
  simp

/-- C7: the blacklist store keeps at most one row per
`(owner_id, blocked_user_id)` pair after any sequence of Block / Unblock
operations starting from the fresh table, and Block is an idempotent
upsert: re-blocking an already-blocked pair does not add a second row — the
table length is unchanged — but replaces the existing row, so the lookup of
the pair yields the new reason and timestamp, and the invariant is
preserved. -/
theorem c7_blacklist_unique_and_upsert :
    (∀ ops : List BLOp, KeyUnique (applyBLOps ops)) ∧
    (∀ (db : List BLRow) (R : BLRow) (o b : Nat) (r : String) (t : Nat),
      KeyUnique db → R ∈ db → R.owner_id = o → R.blocked_user_id = b →
      (add_to_blacklist false db o b r t).length = db.length ∧
      (add_to_blacklist false db o b r t).find?
          (fun x => decide (x.owner_id = o ∧ x.blocked_user_id = b)) =
        some ⟨o, b, r, t⟩ ∧
      KeyUnique (add_to_blacklist false db o b r t)) := by
  constructor
  · intro ops
    exact KeyUnique_foldl ops [] (by simp [KeyUnique, blKeys])
  · intro db R o b r t h hR ho hb
    have hred : add_to_blacklist false db o b r t =
        (db.filter (fun x =>
          !(decide (x.owner_id = o ∧ x.blocked_user_id = b)))) ++
        [⟨o, b, r, t⟩] := by
      simp [add_to_blacklist, safe_db_run]
    refine ⟨?_, ?_, ?_⟩
    · rw [hred]
      have hcount := countP_key_of_unique db o b R h hR ho hb
      have hlen := length_filter_not_add_countP
        (fun x => decide (x.owner_id = o ∧ x.blocked_user_id = b)) db
      simp only [List.length_append, List.length_cons, List.length_nil]
      omega
    · rw [hred]
      have hfnone : (db.filter (fun x =>
          !(decide (x.owner_id = o ∧ x.blocked_user_id = b)))).find?
          (fun x => decide (x.owner_id = o ∧ x.blocked_user_id = b)) =
          none := by
        apply find?_eq_none_of_all
        intro y hy
        rcases List.mem_filter.mp hy with ⟨hym, hyc⟩
        intro hcon
        rw [hcon] at hyc
        simp at hyc
      rw [find?_append_none _ _ _ hfnone]
      simp
    · rw [hred]
      exact KeyUnique_upsert db o b r t h

def w7db : List BLRow := [⟨1, 2, "old", 5⟩]

def w7ops : List BLOp := [BLOp.block false 1 2 "x" 1,
  BLOp.block false 1 2 "y" 2, BLOp.unblock false 1 2]

/-- Witness for C7: a block / re-block / unblock run keeps the key
invariant, and re-blocking the already-blocked pair `(1, 2)` keeps the
table at one row while replacing reason `old` / timestamp 5 by `new` /
9. -/
theorem c7_blacklist_unique_and_upsert_witness :
    KeyUnique (applyBLOps w7ops) ∧
    (KeyUnique w7db ∧ (⟨1, 2, "old", 5⟩ : BLRow) ∈ w7db) ∧
    (add_to_blacklist false w7db 1 2 "new" 9).length = w7db.length ∧
    (add_to_blacklist false w7db 1 2 "new" 9).find?
        (fun x => decide (x.owner_id = 1 ∧ x.blocked_user_id = 2)) =
      some ⟨1, 2, "new", 9⟩ :=
  ⟨c7_blacklist_unique_and_upsert.1 w7ops,
   ⟨by show (blKeys w7db).Nodup; decide, by decide⟩,
   (c7_blacklist_unique_and_upsert.2 w7db ⟨1, 2, "old", 5⟩ 1 2 "new" 9
      (by show (blKeys w7db).Nodup; decide) (by decide) rfl rfl).1,
   (c7_blacklist_unique_and_upsert.2 w7db ⟨1, 2, "old", 5⟩ 1 2 "new" 9
      (by show (blKeys w7db).Nodup; decide) (by decide) rfl rfl).2.1⟩

/-- The blacklist-denial pass never touches a principal that is not an
individual member (roles, `@everyone`, the bot user). -/
theorem blacklistPass_skip (g : Guild) (bl : List Nat) (val : PermOW)
    (m : OWFun) (q : Principal)
    (h : ∀ u : Member, q ≠ Principal.member u) :
    blacklistPass g bl val m q = m q := by
  rw [blacklistPass_apply, deniedBy_not_member g bl q h]
  simp

/-- Counterexample for C8: the claim says a failure of the underlying log
write does not propagate to the append operation's caller.  But
`add_admin_log` wraps `safe_db_context` in no `try/except`, and
`safe_db_context` re-raises after its rollback and diagnostic — so with a
failing store the append returns the store error to the caller instead of
swallowing it, here evaluated at the concrete log row that
`create_room_with_gender` writes. -/
theorem c8_append_failure_counterexample :
    add_admin_log true []
        ⟨"room-create", some 1, none, "text:10 voice:20", 0⟩ =
      Except.error DBError.failure := rfl

/-- C8 amended: admin-log Append is NOT fire-and-forget.  A failure of the
underlying log write propagates to `add_admin_log`'s caller as the
re-raised store exception (`safe_db_context` rolls back, logs a diagnostic
and re-raises; `add_admin_log` installs no handler, unlike the blacklist
operations); only on success is the row appended. -/
theorem c8_append_failure_propagates (storeFail : Bool)
    (logs : List AdminLogRow) (row : AdminLogRow) :
    add_admin_log storeFail logs row =
      if storeFail then Except.error DBError.failure
      else Except.ok (logs ++ [row]) := by
  cases storeFail <;> rfl

/-- C9: a room of category `all` with zero voice occupants reconciles to
the open state — both category-eligible roles get `view_channel=True`, the
default `@everyone` role is denied, and the occupancy cap becomes
0 + 0 + 1 = 1; and the overwrite set built at creation likewise allows both
roles and denies the default role. -/
theorem c9_open_room_on_creation (g : Guild) (storeFail : Bool)
    (bldb : List BLRow) (rooms : List RoomRow) (vid : Nat)
    (t v : Channel) (row : RoomRow) (mr fr : Nat) (creator : Member)
    (hrow : rooms.find? (fun r => decide (r.voice_channel_id = vid)) =
      some row)
    (hgen : row.gender = "all")
    (hmr : g.maleRole = some mr) (hfr : g.femaleRole = some fr)
    (hmf : mr ≠ fr) :
    check_room_capacity g storeFail bldb rooms vid t v [] =
      some (reconcile g storeFail bldb row t v []) ∧
    (reconcile g storeFail bldb row t v []).branch = Branch.opened ∧
    (∀ ch ∈ [(reconcile g storeFail bldb row t v []).textCh,
             (reconcile g storeFail bldb row t v []).voiceCh],
      ch.ow (Principal.role mr) = some owViewTrue ∧
      ch.ow (Principal.role fr) = some owViewTrue ∧
      ch.ow Principal.defaultRole = some owViewFalse) ∧
    (reconcile g storeFail bldb row t v []).voiceCh.user_limit = 1 ∧
    create_overwrites g storeFail bldb creator "all" (Principal.role mr) =
      some owViewTrue ∧
    create_overwrites g storeFail bldb creator "all" (Principal.role fr) =
      some owViewTrue ∧
    create_overwrites g storeFail bldb creator "all" Principal.defaultRole =
      some owViewFalse := by
  have hbr : ¬ 2 ≤ humanCount ([] : List Member) := by decide
  have hnr : ∀ rid : Nat, ∀ u : Member,
      Principal.role rid ≠ Principal.member u :=
    fun rid u h => Principal.noConfusion h
  have hnd : ∀ u : Member, Principal.defaultRole ≠ Principal.member u :=
    fun u h => Principal.noConfusion h
  have hfacts :
      blacklistPass g (get_blacklist storeFail bldb row.creator_id)
          owDenyAll
          (show_overwrites g row.role_id row.creator_id row.gender)
          (Principal.role mr) = some owViewTrue ∧
      blacklistPass g (get_blacklist storeFail bldb row.creator_id)
          owDenyAll
          (show_overwrites g row.role_id row.creator_id row.gender)
          (Principal.role fr) = some owViewTrue ∧
      blacklistPass g (get_blacklist storeFail bldb row.creator_id)
          owDenyAll
          (show_overwrites g row.role_id row.creator_id row.gender)
          Principal.defaultRole = some owViewFalse := by
    refine ⟨?_, ?_, ?_⟩
    · rw [blacklistPass_skip _ _ _ _ _ (hnr mr), hgen]
      exact (show_overwrites_gender_all g row.role_id row.creator_id mr fr
        hmr hfr hmf).1
    · rw [blacklistPass_skip _ _ _ _ _ (hnr fr), hgen]
      exact (show_overwrites_gender_all g row.role_id row.creator_id mr fr
        hmr hfr hmf).2
    · rw [blacklistPass_skip _ _ _ _ _ hnd]
      exact show_overwrites_default g row.role_id row.creator_id row.gender
  have howt : (reconcile g storeFail bldb row t v []).textCh.ow =
      blacklistPass g (get_blacklist storeFail bldb row.creator_id)
        owDenyAll
        (show_overwrites g row.role_id row.creator_id row.gender) := by
    simp [reconcile, hbr, show_room]
  have howv : (reconcile g storeFail bldb row t v []).voiceCh.ow =
      blacklistPass g (get_blacklist storeFail bldb row.creator_id)
        owDenyAll
        (show_overwrites g row.role_id row.creator_id row.gender) := by
    simp [reconcile, hbr, show_room]
  refine ⟨by simp [check_room_capacity, hrow], by simp [reconcile, hbr],
    ?_, by simp [reconcile, hbr, show_room, humanCount, botCount], ?_, ?_, ?_⟩
  · intro ch hch
    rcases List.mem_cons.mp hch with h1 | h1
    · subst h1
      rw [howt]
      exact hfacts
    · rw [List.mem_singleton] at h1
      subst h1
      rw [howv]
      exact hfacts
  · unfold create_overwrites
    rw [blacklistPass_skip _ _ _ _ _ (hnr mr)]
    simp [hmr, hfr, owSet, hmf, owEmpty]
  · unfold create_overwrites
    rw [blacklistPass_skip _ _ _ _ _ (hnr fr)]
    simp [hmr, hfr, owSet, Ne.symm hmf, owEmpty]
  · unfold create_overwrites
    rw [blacklistPass_skip _ _ _ _ _ hnd]
    simp [hmr, hfr, owSet, owEmpty]

def w9g : Guild := ⟨[⟨5, false⟩], [7], some 3, some 4⟩

def w9row : RoomRow := ⟨1, 10, 20, 5, 0, 7, "all", ""⟩

def w9t : Channel := ⟨owEmpty, 0, false⟩

def w9v : Channel := ⟨owEmpty, 0, true⟩

/-- Witness for C9: a fresh `all` room with an empty voice channel is open
with cap 1. -/
theorem c9_open_room_on_creation_witness :
    ([w9row].find? (fun r => decide (r.voice_channel_id = 20)) =
      some w9row) ∧
    w9row.gender = "all" ∧
    (reconcile w9g false [] w9row w9t w9v []).branch = Branch.opened ∧
    (reconcile w9g false [] w9row w9t w9v []).voiceCh.user_limit = 1 :=
  ⟨by decide, rfl,
   (c9_open_room_on_creation w9g false [] [w9row] 20 w9t w9v w9row 3 4
      ⟨5, false⟩ (by decide) rfl rfl rfl (by decide)).2.1,
   (c9_open_room_on_creation w9g false [] [w9row] 20 w9t w9v w9row 3 4
      ⟨5, false⟩ (by decide) rfl rfl rfl (by decide)).2.2.2.1⟩

/-- C10: when reading the blacklist store fails, `get_blacklist` catches
the error and returns the empty list instead of raising; consequently every
downstream blacklist-denial pass — at room creation and in both
reconciliation branches — silently applies no per-user denies on that
invocation: each computation equals the one done with an empty blacklist,
so blocked users are not denied while the store is unavailable. -/
theorem c10_blacklist_unavailable_no_denies :
    (∀ (db : List BLRow) (owner_id : Nat),
      get_blacklist true db owner_id = []) ∧
    (∀ (g : Guild) (val : PermOW) (m : OWFun),
      blacklistPass g [] val m = m) ∧
    (∀ (g : Guild) (bldb : List BLRow) (creator_id : Nat)
        (t v : Channel) (ms : List Member),
      hide_room g true bldb creator_id t v ms =
        hide_room g false [] creator_id t v ms) ∧
    (∀ (g : Guild) (bldb : List BLRow) (creator_id role_id : Nat)
        (gender : String) (t v : Channel),
      show_room g true bldb creator_id role_id gender t v =
        show_room g false [] creator_id role_id gender t v) ∧
    (∀ (g : Guild) (bldb : List BLRow) (creator : Member)
        (gender : String),
      create_overwrites g true bldb creator gender =
        create_overwrites g false [] creator gender) :=
  ⟨fun _ _ => rfl, fun _ _ _ => rfl, fun _ _ _ _ _ _ => rfl,
   fun _ _ _ _ _ _ _ => rfl, fun _ _ _ _ => rfl⟩
